import Mathlib

/-!
Shallow embedding of `merge_xlsx.py` (csv-merger): a batch tool that reads
xlsx files from a directory, keeps only the two required columns 題目/答案,
accumulates the rows into a growing dataset, counts — per file — how many of
the newly appended rows duplicate rows already present before the file was
merged, deduplicates the dataset at the end of each file's processing, and
finally writes the dataset to a CSV (or reports that there is nothing to
export when it is empty).

Cells are modelled as strings; rows of the accumulated dataset are
(question, answer) pairs, compared by structural equality, exactly as the
script compares full projected rows.
-/

/-- A record of the accumulated dataset: the (題目, 答案) pair of one row. -/
abbrev Row := String × String

/-- A loaded spreadsheet: its column names and its rows (one cell list per
row, aligned with the column list). Models the `DataFrame` returned by
`pd.read_excel` (line 64). -/
structure Table where
  cols : List String
  rows : List (List String)

/-- One file of the input directory: either it raises during load (the
`except` branch, lines 116-118) or it loads as a table. -/
inductive SourceFile where
  | loadError : SourceFile
  | table : Table → SourceFile

/-- `required_columns = ['題目', '答案']` (line 69). -/
def requiredColumns : List String := ["題目", "答案"]

/-- `missing_columns = [col for col in required_columns if col not in df.columns]`
(line 70). -/
def missingColumns (t : Table) : List String :=
  requiredColumns.filter (fun c => !(t.cols.contains c))

/-- The value a row exposes under a column name: the cell at the first index
of that name in the column list (pandas column selection by label). -/
def cellAt (cols : List String) (row : List String) (c : String) : String :=
  row.getD (cols.indexOf c) ""

/-- `df = df[required_columns]` applied to one row (line 78): projection onto
(題目, 答案), in that fixed order, whatever the source column order. -/
def projectRow (cols : List String) (row : List String) : Row :=
  (cellAt cols row "題目", cellAt cols row "答案")

/-- Projection of a whole table onto the two required columns, preserving
row order (line 78). -/
def projectTable (t : Table) : List Row :=
  t.rows.map (projectRow t.cols)

/-- Recursion core of `drop_duplicates`: keep a row iff it has not been seen
yet; `seen` carries the rows already kept. -/
def dropDupAux : List Row → List Row → List Row
  | _, [] => []
  | seen, r :: rs =>
    if r ∈ seen then dropDupAux seen rs else r :: dropDupAux (r :: seen) rs

/-- `all_data.drop_duplicates()` (line 108): drop every row that is a
structural duplicate of an earlier-index row; first occurrence wins and
relative order is preserved (pandas default `keep='first'`). -/
def dropDuplicates (l : List Row) : List Row :=
  dropDupAux [] l

/-- The per-file duplicate count (lines 93-105): when the dataset already
holds rows (`before_merge > 0`), count the newly appended rows that equal
some row of the dataset as it stood before the merge; otherwise 0. -/
def duplicateCount (prior newRows : List Row) : Nat :=
  if 0 < prior.length then
    newRows.countP (fun r => decide (r ∈ prior))
  else 0

/-- The mutable state of the accumulation loop: the columns and rows of
`all_data` (line 54) and the running counters `total_rows_before` (line 55)
and `total_duplicates` (line 56). -/
structure MergeState where
  dataCols : List String
  allData : List Row
  totalRowsBefore : Nat
  totalDuplicates : Nat

/-- `all_data = pd.DataFrame(); total_rows_before = 0; total_duplicates = 0`
(lines 54-56): the pristine empty frame has no columns. -/
def initState : MergeState :=
  { dataCols := [], allData := [], totalRowsBefore := 0, totalDuplicates := 0 }

/-- One iteration of the loop over xlsx files (lines 59-118). A file that
raises during load is skipped (lines 116-118); a file missing a required
column is skipped before any counter is touched (lines 70-75). Otherwise the
file is projected, `total_rows_before` grows by the pre-projection row count
(line 81), the rows are appended (line 87), the duplicate count against the
prior dataset is taken (lines 93-105) and the dataset is deduplicated
(line 108). `pd.concat` column alignment is modelled for the cases this
program reaches: the accumulator is either the pristine column-free frame or
already carries exactly the projected columns, and the incoming frame always
carries exactly the projected columns. -/
def processFile (s : MergeState) (f : SourceFile) : MergeState :=
  match f with
  | .loadError => s
  | .table t =>
    if missingColumns t = [] then
      let rows := projectTable t
      { dataCols := if s.dataCols = [] then requiredColumns else s.dataCols
        allData := dropDuplicates (s.allData ++ rows)
        totalRowsBefore := s.totalRowsBefore + t.rows.length
        totalDuplicates := s.totalDuplicates + duplicateCount s.allData rows }
    else s

/-- The whole accumulation stage: fold the loop body over the discovered
files, starting from the empty state. -/
def runMerge (files : List SourceFile) : MergeState :=
  files.foldl processFile initState

/-- The rows a file contributes to the raw (undeduplicated) accumulation:
its projected rows when it is merged, nothing when it is skipped. -/
def contributedRows : SourceFile → List Row
  | .loadError => []
  | .table t => if missingColumns t = [] then projectTable t else []

/-- The undeduplicated concatenation of every file's contributed rows, in
processing order. -/
def rawConcat (files : List SourceFile) : List Row :=
  (files.map contributedRows).flatten

/-- The pre-projection row count a file adds to `total_rows_before`
(line 81): `len(df)` for a merged file, nothing for a skipped one. -/
def preProjectionRowCount : SourceFile → Nat
  | .loadError => 0
  | .table t => if missingColumns t = [] then t.rows.length else 0

/-- Outcome of finalization (lines 128-137): either the CSV is written with
this header and these rows, or the "nothing to export" message is printed. -/
inductive FinalAction where
  | wroteFile : List String → List Row → FinalAction
  | nothingToExport : FinalAction

/-- `if not all_data.empty: to_csv(...) else: print nothing-to-export`
(lines 128-137): write header and rows when the dataset is non-empty. -/
def finalize (s : MergeState) : FinalAction :=
  if s.allData.isEmpty then .nothingToExport else .wroteFile s.dataCols s.allData

/-- Outcome of a whole `merge_xlsx_files` call. -/
inductive PipelineResult where
  | abortedNotFound : PipelineResult
  | abortedNoFiles : PipelineResult
  | completed : MergeState → FinalAction → PipelineResult

/-- `merge_xlsx_files` (lines 35-137) over a discovery result: `none` models
a missing input directory (lines 38-40: error message, return), `some []`
models a directory with no xlsx file (lines 45-48: warning, return),
otherwise the accumulation loop runs and finalization follows. -/
def mergeXlsxFiles : Option (List SourceFile) → PipelineResult
  | none => .abortedNotFound
  | some [] => .abortedNoFiles
  | some (f :: fs) => .completed (runMerge (f :: fs)) (finalize (runMerge (f :: fs)))

/-! ### Library lemmas about `dropDuplicates` -/

theorem mem_dropDupAux {x : Row} :
    ∀ (l seen : List Row), x ∈ dropDupAux seen l ↔ x ∈ l ∧ x ∉ seen := by
  intro l
  induction l with
  | nil => intro seen; simp [dropDupAux]
  | cons r rs ih =>
    intro seen
    by_cases hr : r ∈ seen
    · simp only [dropDupAux, if_pos hr, ih, List.mem_cons]
      constructor
      · rintro ⟨hx, hns⟩; exact ⟨Or.inr hx, hns⟩
      · rintro ⟨hx | hx, hns⟩
        · exact absurd (hx ▸ hr) hns
        · exact ⟨hx, hns⟩
    · simp only [dropDupAux, if_neg hr]
      constructor
      · intro hmem
        rcases List.mem_cons.1 hmem with rfl | hxr
        · exact ⟨List.mem_cons_self x rs, hr⟩
        · obtain ⟨hx, hns⟩ := (ih (r :: seen)).1 hxr
          exact ⟨List.mem_cons_of_mem _ hx, fun hxs => hns (List.mem_cons_of_mem _ hxs)⟩
      · rintro ⟨hx, hns⟩
        rcases List.mem_cons.1 hx with rfl | hxr
        · exact List.mem_cons_self x _
        · by_cases hxreq : x = r
          · exact hxreq ▸ List.mem_cons_self r _
          · refine List.mem_cons_of_mem _ ((ih (r :: seen)).2 ⟨hxr, ?_⟩)
            intro hxs
            rcases List.mem_cons.1 hxs with h1 | h1
            · exact hxreq h1
            · exact hns h1

theorem mem_dropDuplicates {x : Row} {l : List Row} :
    x ∈ dropDuplicates l ↔ x ∈ l := by
  simp [dropDuplicates, mem_dropDupAux]

theorem dropDupAux_sublist :
    ∀ (l seen : List Row), List.Sublist (dropDupAux seen l) l := by
  intro l
  induction l with
  | nil => intro seen; simp [dropDupAux]
  | cons r rs ih =>
    intro seen
    by_cases hr : r ∈ seen
    · simp only [dropDupAux, if_pos hr]
      exact (ih seen).trans (List.sublist_cons_self r rs)
    · simp only [dropDupAux, if_neg hr]
      exact List.Sublist.cons₂ r (ih (r :: seen))

theorem nodup_dropDupAux :
    ∀ (l seen : List Row), (dropDupAux seen l).Nodup := by
  intro l
  induction l with
  | nil => intro seen; simp [dropDupAux]
  | cons r rs ih =>
    intro seen
    by_cases hr : r ∈ seen
    · simpa only [dropDupAux, if_pos hr] using ih seen
    · simp only [dropDupAux, if_neg hr, List.nodup_cons]
      refine ⟨fun hmem => ?_, ih (r :: seen)⟩
      exact ((mem_dropDupAux _ _).1 hmem).2 (List.mem_cons_self r seen)

theorem nodup_dropDuplicates (l : List Row) : (dropDuplicates l).Nodup :=
  nodup_dropDupAux l []

theorem dropDuplicates_sublist (l : List Row) :
    List.Sublist (dropDuplicates l) l :=
  dropDupAux_sublist l []

theorem dropDupAux_absorb (Y : List Row) :
    ∀ (X seen : List Row),
      dropDupAux seen (dropDupAux seen X ++ Y) = dropDupAux seen (X ++ Y) := by
  intro X
  induction X with
  | nil => intro seen; simp [dropDupAux]
  | cons r rs ih =>
    intro seen
    by_cases hr : r ∈ seen
    · simp only [dropDupAux, if_pos hr]
      exact ih seen
    · simp only [List.cons_append, dropDupAux, if_neg hr, List.append_eq]
      rw [ih (r :: seen)]

theorem dropDuplicates_absorb (X Y : List Row) :
    dropDuplicates (dropDuplicates X ++ Y) = dropDuplicates (X ++ Y) :=
  dropDupAux_absorb Y X []

theorem dropDuplicates_eq_nil_iff {l : List Row} :
    dropDuplicates l = [] ↔ l = [] := by
  cases l with
  | nil => simp [dropDuplicates, dropDupAux]
  | cons r rs =>
    simp [dropDuplicates, dropDupAux]

theorem dropDupAux_of_disjoint_nodup :
    ∀ (l seen : List Row), l.Nodup → (∀ x ∈ l, x ∉ seen) →
      dropDupAux seen l = l := by
  intro l
  induction l with
  | nil => intro seen _ _; simp [dropDupAux]
  | cons r rs ih =>
    intro seen hnd hdisj
    have hr : r ∉ seen := hdisj r (List.mem_cons_self r rs)
    simp only [dropDupAux, if_neg hr]
    rw [ih (r :: seen) (List.Nodup.of_cons hnd)]
    intro x hx
    simp only [List.mem_cons]
    rintro (hxr | hxs)
    · exact (List.nodup_cons.1 hnd).1 (hxr ▸ hx)
    · exact hdisj x (List.mem_cons_of_mem _ hx) hxs

theorem dropDuplicates_of_nodup {l : List Row} (h : l.Nodup) :
    dropDuplicates l = l :=
  dropDupAux_of_disjoint_nodup l [] h (by simp)

theorem dropDupAux_append_extends :
    ∀ (l : List Row) (y seen : List Row), l.Nodup → (∀ x ∈ l, x ∉ seen) →
      ∃ extra, dropDupAux seen (l ++ y) = l ++ extra := by
  intro l
  induction l with
  | nil => intro y seen _ _; exact ⟨dropDupAux seen y, by simp⟩
  | cons r rs ih =>
    intro y seen hnd hdisj
    have hr : r ∉ seen := hdisj r (List.mem_cons_self r rs)
    have hdisj2 : ∀ x ∈ rs, x ∉ r :: seen := by
      intro x hx
      simp only [List.mem_cons]
      rintro (hxr | hxs)
      · exact (List.nodup_cons.1 hnd).1 (hxr ▸ hx)
      · exact hdisj x (List.mem_cons_of_mem _ hx) hxs
    obtain ⟨extra, hextra⟩ := ih y (r :: seen) (List.Nodup.of_cons hnd) hdisj2
    refine ⟨extra, ?_⟩
    have hunfold : dropDupAux seen ((r :: rs) ++ y) =
        r :: dropDupAux (r :: seen) (rs ++ y) := by
      simp only [List.cons_append, dropDupAux, if_neg hr, List.append_eq]
    rw [hunfold, hextra, List.cons_append]

/-! ### Lemmas about the accumulation loop -/

theorem processFile_loadError (s : MergeState) :
    processFile s SourceFile.loadError = s := rfl

theorem processFile_skip (s : MergeState) (t : Table)
    (h : missingColumns t ≠ []) :
    processFile s (SourceFile.table t) = s := by
  simp [processFile, h]

theorem processFile_merge (s : MergeState) (t : Table)
    (h : missingColumns t = []) :
    processFile s (SourceFile.table t) =
      { dataCols := if s.dataCols = [] then requiredColumns else s.dataCols
        allData := dropDuplicates (s.allData ++ projectTable t)
        totalRowsBefore := s.totalRowsBefore + t.rows.length
        totalDuplicates :=
          s.totalDuplicates + duplicateCount s.allData (projectTable t) } := by
  simp [processFile, h]

theorem mergeLoop_allData :
    ∀ (files : List SourceFile) (X : List Row) (s : MergeState),
      s.allData = dropDuplicates X →
      (files.foldl processFile s).allData = dropDuplicates (X ++ rawConcat files) := by
  intro files
  induction files with
  | nil => intro X s hs; simpa [rawConcat] using hs
  | cons f fs ih =>
    intro X s hs
    have hstep : (processFile s f).allData = dropDuplicates ((X ++ contributedRows f)) := by
      cases f with
      | loadError =>
        simp [processFile_loadError, contributedRows, hs]
      | table t =>
        by_cases h : missingColumns t = []
        · rw [processFile_merge s t h]
          simp only [contributedRows, if_pos h]
          rw [hs, dropDuplicates_absorb]
        · rw [processFile_skip s t h]
          simp [contributedRows, if_neg h, hs]
    have := ih (X ++ contributedRows f) (processFile s f) hstep
    simp only [List.foldl_cons]
    rw [this]
    simp [rawConcat, List.append_assoc]

theorem runMerge_allData (files : List SourceFile) :
    (runMerge files).allData = dropDuplicates (rawConcat files) := by
  have := mergeLoop_allData files [] initState (by simp [initState, dropDuplicates, dropDupAux])
  simpa [runMerge] using this

theorem mergeLoop_totalRows :
    ∀ (files : List SourceFile) (s : MergeState),
      (files.foldl processFile s).totalRowsBefore =
        s.totalRowsBefore + (files.map preProjectionRowCount).sum := by
  intro files
  induction files with
  | nil => intro s; simp
  | cons f fs ih =>
    intro s
    simp only [List.foldl_cons, List.map_cons, List.sum_cons]
    rw [ih (processFile s f)]
    have : (processFile s f).totalRowsBefore =
        s.totalRowsBefore + preProjectionRowCount f := by
      cases f with
      | loadError => simp [processFile_loadError, preProjectionRowCount]
      | table t =>
        by_cases h : missingColumns t = []
        · rw [processFile_merge s t h]; simp [preProjectionRowCount, if_pos h]
        · rw [processFile_skip s t h]; simp [preProjectionRowCount, if_neg h]
    rw [this, Nat.add_assoc]

theorem duplicateCount_dropDuplicates (X Y : List Row) :
    duplicateCount (dropDuplicates X) Y = duplicateCount X Y := by
  by_cases hX : X = []
  · subst hX
    simp [dropDuplicates, dropDupAux]
  · have h1 : dropDuplicates X ≠ [] := fun h => hX (dropDuplicates_eq_nil_iff.1 h)
    have hfun : (fun r => decide (r ∈ dropDuplicates X)) =
        (fun r => decide (r ∈ X)) := by
      funext r
      simp [decide_eq_decide, mem_dropDuplicates]
    unfold duplicateCount
    rw [if_pos (List.length_pos.2 h1), if_pos (List.length_pos.2 hX), hfun]

theorem processFile_cols (s : MergeState) (f : SourceFile)
    (h1 : s.allData ≠ [] → s.dataCols = requiredColumns)
    (h2 : s.dataCols = [] ∨ s.dataCols = requiredColumns) :
    ((processFile s f).allData ≠ [] → (processFile s f).dataCols = requiredColumns)
    ∧ ((processFile s f).dataCols = [] ∨ (processFile s f).dataCols = requiredColumns) := by
  cases f with
  | loadError => exact ⟨h1, h2⟩
  | table t =>
    by_cases hm : missingColumns t = []
    · rw [processFile_merge s t hm]
      by_cases hc : s.dataCols = []
      · exact ⟨fun _ => by simp [hc], Or.inr (by simp [hc])⟩
      · have hreq : s.dataCols = requiredColumns := h2.resolve_left hc
        exact ⟨fun _ => by simp [hc, hreq], Or.inr (by simp [hc, hreq])⟩
    · rw [processFile_skip s t hm]
      exact ⟨h1, h2⟩

theorem mergeLoop_cols :
    ∀ (files : List SourceFile) (s : MergeState),
      (s.allData ≠ [] → s.dataCols = requiredColumns) →
      (s.dataCols = [] ∨ s.dataCols = requiredColumns) →
      ((files.foldl processFile s).allData ≠ [] →
          (files.foldl processFile s).dataCols = requiredColumns)
      ∧ ((files.foldl processFile s).dataCols = [] ∨
          (files.foldl processFile s).dataCols = requiredColumns) := by
  intro files
  induction files with
  | nil => intro s h1 h2; exact ⟨h1, h2⟩
  | cons f fs ih =>
    intro s h1 h2
    have hstep := processFile_cols s f h1 h2
    simpa only [List.foldl_cons] using ih (processFile s f) hstep.1 hstep.2

theorem runMerge_cols (files : List SourceFile) :
    ((runMerge files).allData ≠ [] → (runMerge files).dataCols = requiredColumns)
    ∧ ((runMerge files).dataCols = [] ∨ (runMerge files).dataCols = requiredColumns) := by
  have h1 : initState.allData ≠ [] → initState.dataCols = requiredColumns := by
    intro h; exact absurd rfl h
  exact mergeLoop_cols files initState h1 (Or.inl rfl)

/-! ### Concrete input files used by sanity checks and witnesses -/

/-- A well-formed file holding two distinct rows, used by several witnesses
(scenario A, file 1). -/
def tableA1 : Table := { cols := requiredColumns, rows := [["Q1", "A1"], ["Q2", "A2"]] }

/-- A well-formed file whose first row duplicates tableA1's first row
(scenario A, file 2). -/
def tableA2 : Table := { cols := requiredColumns, rows := [["Q1", "A1"], ["Q3", "A3"]] }

/-- A file with wrongly named columns, skipped by the column check
(scenario B). -/
def tableBad : Table := { cols := ["Question", "Ans"], rows := [["Q1", "A1"]] }

/-- A well-formed file with an internal duplicate (scenario D). -/
def tableD : Table := { cols := requiredColumns, rows := [["Q1", "A1"], ["Q1", "A1"]] }

example :
    (runMerge [SourceFile.table tableA1, SourceFile.table tableA2]).allData =
      [("Q1", "A1"), ("Q2", "A2"), ("Q3", "A3")] := by decide

example :
    (runMerge [SourceFile.table tableA1, SourceFile.table tableA2]).totalDuplicates = 1 := by
  decide

example : (runMerge [SourceFile.table tableD]).allData = [("Q1", "A1")] := by decide

example : (runMerge [SourceFile.table tableD]).totalDuplicates = 0 := by decide

/-! ### Claim theorems -/

/-- C1: for every well-formed input file processed, the reported per-file
duplicate count (the amount added to `total_duplicates` and printed) equals
the number of the file's projected rows that are structurally equal to some
row present in the dataset before this file's rows were appended; rows that
only duplicate other new rows of the same file are not counted (the count
only tests membership in the prior dataset), and a file processed while the
dataset is empty reports 0 even if it contains internal duplicates. -/
theorem per_file_duplicate_count (s : MergeState) (t : Table)
    (h : missingColumns t = []) :
    (processFile s (SourceFile.table t)).totalDuplicates =
      s.totalDuplicates + duplicateCount s.allData (projectTable t)
    ∧ duplicateCount s.allData (projectTable t) =
        (projectTable t).countP (fun r => decide (r ∈ s.allData))
    ∧ (s.allData = [] → duplicateCount s.allData (projectTable t) = 0) := by
  refine ⟨by rw [processFile_merge s t h], ?_, ?_⟩
  · unfold duplicateCount
    by_cases hp : s.allData = []
    · simp [hp]
    · rw [if_pos (List.length_pos.2 hp)]
  · intro hempty
    simp [duplicateCount, hempty]

theorem per_file_duplicate_count_witness :
    (processFile initState (SourceFile.table tableD)).totalDuplicates =
      initState.totalDuplicates + duplicateCount initState.allData (projectTable tableD)
    ∧ duplicateCount initState.allData (projectTable tableD) =
        (projectTable tableD).countP (fun r => decide (r ∈ initState.allData))
    ∧ (initState.allData = [] →
        duplicateCount initState.allData (projectTable tableD) = 0) :=
  per_file_duplicate_count initState tableD (by decide)

/-- C2: for every sequence of input files, the final dataset equals the
first-occurrence deduplication of the concatenation of all the rows the
files contribute (their projected rows; skipped files contribute nothing, so
for a sequence of well-formed files this is exactly the concatenation of all
projected rows); consequently it holds no two structurally equal records
(`Nodup`) and is a sublist of that concatenation, so any two retained
records appear in the output in the order in which they were appended. -/
theorem final_dataset_first_occurrence_dedup (files : List SourceFile) :
    (runMerge files).allData = dropDuplicates (rawConcat files)
    ∧ (runMerge files).allData.Nodup
    ∧ List.Sublist (runMerge files).allData (rawConcat files) := by
  refine ⟨runMerge_allData files, ?_, ?_⟩
  · rw [runMerge_allData files]
    exact nodup_dropDuplicates _
  · rw [runMerge_allData files]
    exact dropDuplicates_sublist _

/-- C3: the per-file duplicate count reported when a well-formed file `t` is
processed after `files` equals the count that would be computed against the
undeduplicated concatenation of all prior files' contributed rows — even
though the stored dataset is deduplicated at the end of each file's
processing, deduplication preserves membership, so the two counts agree. -/
theorem duplicate_count_vs_raw (files : List SourceFile) (t : Table)
    (_h : missingColumns t = []) :
    duplicateCount (runMerge files).allData (projectTable t) =
      duplicateCount (rawConcat files) (projectTable t) := by
  rw [runMerge_allData files, duplicateCount_dropDuplicates]

theorem duplicate_count_vs_raw_witness :
    duplicateCount (runMerge [SourceFile.table tableD]).allData (projectTable tableA1) =
      duplicateCount (rawConcat [SourceFile.table tableD]) (projectTable tableA1) :=
  duplicate_count_vs_raw [SourceFile.table tableD] tableA1 (by decide)

/-- C4 counterexample: the dataset does NOT shrink only at finalization —
it is deduplicated at the end of every file's processing (line 108). After
merging a single file with an internal duplicate, two rows were appended but
only one remains, before any further file is processed: here the run over
[tableD, tableA1] holds 1 row after the first file and continues from that
already-deduplicated state. -/
theorem dedup_between_files_counterexample :
    (runMerge [SourceFile.table tableD]).allData.length = 1
    ∧ (rawConcat [SourceFile.table tableD]).length = 2
    ∧ (runMerge [SourceFile.table tableD, SourceFile.table tableA1]).allData =
        [("Q1", "A1"), ("Q2", "A2")] := by
  decide

/-- C4 amended: the dataset is created empty at program start; at the end of
each file's processing step it equals the deduplication of the previous
dataset followed by the file's contributed rows (so it can shrink during
accumulation, once per file, and not at finalization, which performs no
deduplication of its own); and — the prior dataset being deduplicated — no
step ever removes a previously retained row: each step only appends. -/
theorem dataset_lifecycle_amended (s : MergeState) (f : SourceFile)
    (h : s.allData.Nodup) :
    (runMerge []).allData = []
    ∧ (processFile s f).allData = dropDuplicates (s.allData ++ contributedRows f)
    ∧ ∃ extra, (processFile s f).allData = s.allData ++ extra := by
  refine ⟨rfl, ?_, ?_⟩
  · cases f with
    | loadError =>
      simp [processFile_loadError, contributedRows, dropDuplicates_of_nodup h]
    | table t =>
      by_cases hm : missingColumns t = []
      · rw [processFile_merge s t hm]
        simp [contributedRows, hm]
      · rw [processFile_skip s t hm]
        simp [contributedRows, hm, dropDuplicates_of_nodup h]
  · cases f with
    | loadError => exact ⟨[], by simp [processFile_loadError]⟩
    | table t =>
      by_cases hm : missingColumns t = []
      · rw [processFile_merge s t hm]
        exact dropDupAux_append_extends s.allData (projectTable t) [] h (by simp)
      · exact ⟨[], by simp [processFile_skip s t hm]⟩

theorem dataset_lifecycle_amended_witness :
    (runMerge []).allData = []
    ∧ (processFile initState (SourceFile.table tableD)).allData =
        dropDuplicates (initState.allData ++ contributedRows (SourceFile.table tableD))
    ∧ ∃ extra, (processFile initState (SourceFile.table tableD)).allData =
        initState.allData ++ extra :=
  dataset_lifecycle_amended initState (SourceFile.table tableD) (by simp [initState])

/-- C5: a file that is missing a required column, or that raises during
load, leaves the whole state unchanged: zero rows added, zero duplicate
count, zero added to total rows read, dataset untouched. -/
theorem skipped_file_no_contribution (s : MergeState) (f : SourceFile)
    (h : f = SourceFile.loadError ∨
        ∃ t, f = SourceFile.table t ∧ missingColumns t ≠ []) :
    processFile s f = s := by
  rcases h with rfl | ⟨t, rfl, ht⟩
  · rfl
  · exact processFile_skip s t ht

theorem skipped_file_no_contribution_witness :
    processFile initState (SourceFile.table tableBad) = initState :=
  skipped_file_no_contribution initState (SourceFile.table tableBad)
    (Or.inr ⟨tableBad, rfl, by decide⟩)

/-- C6: at the end of every run, `total_rows_before` equals the sum, over
exactly the merged (well-formed, successfully loaded) files, of each file's
pre-projection row count; skipped files contribute nothing. -/
theorem total_rows_read_eq_sum (files : List SourceFile) :
    (runMerge files).totalRowsBefore = (files.map preProjectionRowCount).sum := by
  have h := mergeLoop_totalRows files initState
  simpa [runMerge, initState] using h

/-- C7: when the final dataset is empty no file is written and the
"nothing to export" message is produced; when it is non-empty the output
file is written (with the dataset's columns and rows). Both branches of
finalization return normally, so the program terminates cleanly either
way. -/
theorem empty_result_handling (files : List SourceFile) :
    ((runMerge files).allData = [] →
        finalize (runMerge files) = FinalAction.nothingToExport)
    ∧ ((runMerge files).allData ≠ [] →
        finalize (runMerge files) =
          FinalAction.wroteFile (runMerge files).dataCols (runMerge files).allData) := by
  constructor
  · intro h
    simp [finalize, h]
  · intro h
    simp [finalize, h]

theorem empty_result_handling_witness :
    finalize (runMerge []) = FinalAction.nothingToExport
    ∧ finalize (runMerge [SourceFile.table tableA1]) =
        FinalAction.wroteFile (runMerge [SourceFile.table tableA1]).dataCols
          (runMerge [SourceFile.table tableA1]).allData :=
  ⟨(empty_result_handling []).1 rfl,
   (empty_result_handling [SourceFile.table tableA1]).2 (by decide)⟩

/-- C8: when the input directory does not exist at discovery time, the
pipeline aborts with the not-found error message: the result is the abort
outcome, never a completed run, so no accumulation happens and no output is
written. -/
theorem missing_dir_aborts :
    mergeXlsxFiles none = PipelineResult.abortedNotFound
    ∧ ∀ (s : MergeState) (a : FinalAction),
        mergeXlsxFiles none ≠ PipelineResult.completed s a := by
  refine ⟨rfl, ?_⟩
  intro s a h
  simp [mergeXlsxFiles] at h

/-- C9: deduplication is idempotent — applying `drop_duplicates` twice
yields the same dataset as applying it once. -/
theorem dedup_idempotent (X : List Row) :
    dropDuplicates (dropDuplicates X) = dropDuplicates X := by
  have h := dropDuplicates_absorb X []
  simpa using h

/-- C10 counterexample: the columns invariant does not hold after every
file's processing step — after a skipped file (here one with wrongly named
columns) the accumulator is still the pristine frame with no columns at all,
not the two required ones. -/
theorem columns_invariant_counterexample :
    (runMerge [SourceFile.table tableBad]).dataCols ≠ requiredColumns := by
  decide

/-- C10 amended: whenever the accumulated dataset is non-empty (some file
contributed rows) its columns are exactly 題目, 答案 in that fixed order,
regardless of the column order or extra columns of the source files; and
since output is only written when the dataset is non-empty, the written
header is always exactly these two names in this order. -/
theorem merged_columns_fixed (files : List SourceFile)
    (h : (runMerge files).allData ≠ []) :
    (runMerge files).dataCols = requiredColumns
    ∧ finalize (runMerge files) =
        FinalAction.wroteFile requiredColumns (runMerge files).allData := by
  have hcols := (runMerge_cols files).1 h
  refine ⟨hcols, ?_⟩
  simp [finalize, h, hcols]

theorem merged_columns_fixed_witness :
    (runMerge [SourceFile.table tableA1]).dataCols = requiredColumns
    ∧ finalize (runMerge [SourceFile.table tableA1]) =
        FinalAction.wroteFile requiredColumns
          (runMerge [SourceFile.table tableA1]).allData :=
  merged_columns_fixed [SourceFile.table tableA1] (by decide)
